import Mathlib

/-!
Verification of the transform, camera and traversal logic of the
TDT4195 gloom-rs renderer (src/gloom-rs/src/main.rs, src/gloom-rs/src/util.rs).

The Rust code works on f32 values and nalgebra-glm 4x4 matrices; the shallow
embedding below models f32 as the real numbers and glm matrices as
Matrix (Fin 4) (Fin 4) with real entries.  Every definition is translated
directly from the corresponding source function (file and line references in
the doc comments); spec-side definitions used for refinement comparisons are
named with a spec prefix or are marked as modelled from the spec.
-/

namespace Gloom

/-- A 4x4 homogeneous transform matrix with real entries, the model of
nalgebra-glm Mat4 (whose entries are f32). -/
abbrev Mat4 := Matrix (Fin 4) (Fin 4) ℝ

/-- A 3-component vector, the model of glm Vec3. -/
@[ext]
structure Vec3 where
  x : ℝ
  y : ℝ
  z : ℝ

namespace Vec3

/-- Componentwise subtraction of glm vectors. -/
instance : Sub Vec3 := ⟨fun a b => ⟨a.x - b.x, a.y - b.y, a.z - b.z⟩⟩

/-- Componentwise negation of glm vectors. -/
instance : Neg Vec3 := ⟨fun a => ⟨-a.x, -a.y, -a.z⟩⟩

theorem sub_def (a b : Vec3) : a - b = ⟨a.x - b.x, a.y - b.y, a.z - b.z⟩ := rfl

theorem neg_def (a : Vec3) : -a = ⟨-a.x, -a.y, -a.z⟩ := rfl

/-- glm length of a 3-vector: the Euclidean norm. -/
noncomputable def length (v : Vec3) : ℝ :=
  Real.sqrt (v.x ^ 2 + v.y ^ 2 + v.z ^ 2)

/-- glm normalize: divide each component by the Euclidean norm. -/
noncomputable def normalize (v : Vec3) : Vec3 :=
  ⟨v.x / v.length, v.y / v.length, v.z / v.length⟩

/-- glm cross product of two 3-vectors. -/
def cross (a b : Vec3) : Vec3 :=
  ⟨a.y * b.z - a.z * b.y, a.z * b.x - a.x * b.z, a.x * b.y - a.y * b.x⟩

end Vec3

/-- glm length of a 2-vector, used for the xz-projection length in the
billboard pitch computation. -/
noncomputable def length2 (x z : ℝ) : ℝ :=
  Real.sqrt (x ^ 2 + z ^ 2)

/-- The two-argument arctangent, the model of Rust f32 atan2 (y, x), on the
real numbers (signed zeros and NaN have no counterpart here). -/
noncomputable def atan2 (y x : ℝ) : ℝ :=
  if 0 < x then Real.arctan (y / x)
  else if x < 0 then
    (if 0 ≤ y then Real.arctan (y / x) + Real.pi
     else Real.arctan (y / x) - Real.pi)
  else
    (if 0 < y then Real.pi / 2
     else if y < 0 then -(Real.pi / 2)
     else 0)

/-- Rust f32 clamp: returns lo if the value is below lo, hi if above hi,
otherwise the value itself. -/
noncomputable def clamp (x lo hi : ℝ) : ℝ :=
  if x < lo then lo else if hi < x then hi else x

/-- glm rotation about the x axis, the matrix built by
util.rs rotation_matrix_x (line 379): glm rotation of the given angle
about the unit axis (1,0,0). -/
noncomputable def rotation_matrix_x (a : ℝ) : Mat4 :=
  !![1, 0, 0, 0;
     0, Real.cos a, -Real.sin a, 0;
     0, Real.sin a, Real.cos a, 0;
     0, 0, 0, 1]

/-- glm rotation about the y axis, the matrix built by
util.rs rotation_matrix_y (line 384): glm rotation of the given angle
about the unit axis (0,1,0). -/
noncomputable def rotation_matrix_y (a : ℝ) : Mat4 :=
  !![Real.cos a, 0, Real.sin a, 0;
     0, 1, 0, 0;
     -Real.sin a, 0, Real.cos a, 0;
     0, 0, 0, 1]

/-- glm rotation about the z axis, the matrix built by
util.rs rotation_matrix_z (line 389): glm rotation of the given angle
about the unit axis (0,0,1). -/
noncomputable def rotation_matrix_z (a : ℝ) : Mat4 :=
  !![Real.cos a, -Real.sin a, 0, 0;
     Real.sin a, Real.cos a, 0, 0;
     0, 0, 1, 0;
     0, 0, 0, 1]

/-- glm translation by a 3-vector. -/
noncomputable def translation (v : Vec3) : Mat4 :=
  !![1, 0, 0, v.x;
     0, 1, 0, v.y;
     0, 0, 1, v.z;
     0, 0, 0, 1]

/-- glm scaling by a 3-vector of per-axis factors. -/
noncomputable def scaling (v : Vec3) : Mat4 :=
  !![v.x, 0, 0, 0;
     0, v.y, 0, 0;
     0, 0, v.z, 0;
     0, 0, 0, 1]

/-- util.rs translation_matrix (line 435): builds a glm translation from
three scalar offsets. -/
noncomputable def translation_matrix (tx ty tz : ℝ) : Mat4 :=
  translation ⟨tx, ty, tz⟩

/-- glm perspective (right-handed, OpenGL clip depth) with the given aspect
ratio, vertical field of view, near plane and far plane, as called in
main.rs line 227 and util.rs line 508. -/
noncomputable def perspective (aspect fovy near far : ℝ) : Mat4 :=
  let tanHalfFovy := Real.tan (fovy / 2)
  !![1 / (aspect * tanHalfFovy), 0, 0, 0;
     0, 1 / tanHalfFovy, 0, 0;
     0, 0, -(far + near) / (far - near), -(2 * far * near) / (far - near);
     0, 0, -1, 0]

/-- util.rs calculate_direction (line 481): the camera forward vector
computed from yaw and pitch. -/
noncomputable def calculate_direction (yaw pitch : ℝ) : Vec3 :=
  ⟨Real.cos yaw * Real.cos pitch,
   Real.sin pitch,
   Real.sin yaw * Real.cos pitch⟩

/-- util.rs calculate_right_vector (line 489): the closed-form camera right
vector computed from yaw alone. -/
noncomputable def calculate_right_vector (yaw : ℝ) : Vec3 :=
  Vec3.normalize ⟨Real.sin yaw, 0, -Real.cos yaw⟩

/-- util.rs calculate_up_vector (line 493): normalized cross product of the
right and forward vectors. -/
noncomputable def calculate_up_vector (forward right : Vec3) : Vec3 :=
  Vec3.normalize (Vec3.cross right forward)

/-- The world up vector (0,1,0) used in the render loop
(main.rs line 178). -/
def world_up : Vec3 := ⟨0, 1, 0⟩

/-- main.rs line 178: the per-frame camera right vector,
normalize(cross(worldUp, forward)). -/
noncomputable def camera_right (yaw pitch : ℝ) : Vec3 :=
  Vec3.normalize (Vec3.cross world_up (calculate_direction yaw pitch))

/-- main.rs line 179: the per-frame camera up vector,
normalize(cross(forward, right)). -/
noncomputable def camera_up (yaw pitch : ℝ) : Vec3 :=
  Vec3.normalize (Vec3.cross (calculate_direction yaw pitch) (camera_right yaw pitch))

/-- The mouse sensitivity constant of main.rs line 61. -/
def mouse_sensitivity : ℝ := 0.005

/-- The camera look state the render loop mutates when draining the shared
mouse delta (main.rs lines 59-61, 210-220): current yaw, current pitch and
the accumulated (dx, dy) mouse delta held in the shared cell. -/
structure CameraLook where
  yaw : ℝ
  pitch : ℝ
  delta : ℝ × ℝ

/-- main.rs lines 210-220: inside one critical section the render loop
subtracts dy times the sensitivity from pitch, adds dx times the sensitivity
to yaw, clamps pitch to [-pi/2, pi/2] and resets the shared delta
to (0, 0). -/
noncomputable def consume_mouse_delta (st : CameraLook) : CameraLook :=
  let pitch1 := st.pitch - st.delta.2 * mouse_sensitivity
  let yaw1 := st.yaw + st.delta.1 * mouse_sensitivity
  let pitch2 := clamp pitch1 (-(Real.pi / 2)) (Real.pi / 2)
  { yaw := yaw1, pitch := pitch2, delta := (0, 0) }

/-- The initial window width constant of main.rs line 23. -/
def INITIAL_SCREEN_W : ℕ := 800

/-- The initial window height constant of main.rs line 24. -/
def INITIAL_SCREEN_H : ℕ := 600

/-- The state the render loop keeps for resize handling: the shared
window-size cell (width, height, resize flag) and the loop-local
window_aspect_ratio variable (main.rs lines 51, 77). -/
structure ResizeState where
  window_size : ℕ × ℕ × Bool
  window_aspect_ratio : ℝ

/-- The state at the start of the render loop: shared cell
(800, 600, false) and aspect ratio 800 / 600
(main.rs lines 51 and 77). -/
noncomputable def initial_render_state : ResizeState :=
  { window_size := (INITIAL_SCREEN_W, INITIAL_SCREEN_H, false)
    window_aspect_ratio := (INITIAL_SCREEN_W : ℝ) / (INITIAL_SCREEN_H : ℝ) }

/-- The event-loop handler for a window resize (main.rs lines 440-445):
stores the new physical size in the shared cell and raises the flag. -/
def resized_event (st : ResizeState) (w h : ℕ) : ResizeState :=
  { st with window_size := (w, h, true) }

/-- main.rs lines 181-190: each frame the render loop checks the resize
flag; when set it resizes the GL context and viewport (external effects, not
modelled) and clears the flag.  The statement updating
window_aspect_ratio from the new size is commented out in the source
(main.rs line 185), so the aspect-ratio field is left unchanged. -/
def handle_resize (st : ResizeState) : ResizeState :=
  if st.window_size.2.2 then
    { window_size := (st.window_size.1, st.window_size.2.1, false)
      window_aspect_ratio := st.window_aspect_ratio }
  else st

/-- main.rs lines 226-227: the per-frame perspective projection, built from
the loop-local aspect ratio with a 45 degree field of view and near and far
planes 1 and 100. -/
noncomputable def frame_perspective_matrix (st : ResizeState) : Mat4 :=
  perspective st.window_aspect_ratio (45 * (Real.pi / 180)) 1 100

/-- util.rs calculate_transformation_object (line 535): composes the
per-axis rotations as Rz * Ry * Rx, wraps them as
translation * rotation * scaling and applies the view-projection matrix on
the left. -/
noncomputable def calculate_transformation_object
    (position rotation scale : Vec3) (view_projection_matrix : Mat4) : Mat4 :=
  let object_rotation_matrix : Mat4 :=
    rotation_matrix_z rotation.z *
    rotation_matrix_y rotation.y *
    rotation_matrix_x rotation.x
  let object_transform_matrix : Mat4 :=
    translation position *
    object_rotation_matrix *
    scaling scale
  view_projection_matrix * object_transform_matrix

/-- util.rs rotate_vertices (line 399): combines the per-axis rotation
matrices as Rz * Ry * Rx and applies the combined matrix to each
(x, y, z, 1) homogeneous vertex of the flat coordinate list, emitting the
first three components. -/
noncomputable def rotate_vertices
    (vertices : List ℝ) (rotation_x rotation_y rotation_z : ℝ) : List ℝ :=
  let rotation_matrix : Mat4 :=
    rotation_matrix_z rotation_z *
    rotation_matrix_y rotation_y *
    rotation_matrix_x rotation_x
  (List.range (vertices.length / 3)).flatMap (fun i =>
    let vertex : Fin 4 → ℝ :=
      ![vertices.getD (3 * i) 0, vertices.getD (3 * i + 1) 0,
        vertices.getD (3 * i + 2) 0, 1]
    let rotated_vertex := Matrix.mulVec rotation_matrix vertex
    [rotated_vertex 0, rotated_vertex 1, rotated_vertex 2])

/-- The spec formula for the billboard yaw: atan2 of the x and z components
of the normalized particle-to-camera vector. -/
noncomputable def billboard_yaw (camera_position position : Vec3) : ℝ :=
  let d := Vec3.normalize (camera_position - position)
  atan2 d.x d.z

/-- The spec formula for the billboard pitch: atan2 of the y component of
the normalized particle-to-camera vector and the length of its
xz-projection. -/
noncomputable def billboard_pitch (camera_position position : Vec3) : ℝ :=
  let d := Vec3.normalize (camera_position - position)
  atan2 d.y (length2 d.x d.z)

/-- main.rs lines 303-341: the billboard rotation computed in the render
loop for the particles.  The particle-to-camera vector is normalized, the
yaw is atan2(d.x, d.z), the pitch is atan2(d.y, length(vec2(d.x, d.z))),
and the result is the product of a fixed 180 degree yaw correction,
the yaw rotation and the pitch rotation. -/
noncomputable def particles_rotation_animation_matrix
    (camera_position particles_position : Vec3) : Mat4 :=
  let particle_to_camera := camera_position - particles_position
  let particle_to_camera_direction := Vec3.normalize particle_to_camera
  let angle_y := atan2 particle_to_camera_direction.x particle_to_camera_direction.z
  let angle_x := atan2 particle_to_camera_direction.y
    (length2 particle_to_camera_direction.x particle_to_camera_direction.z)
  let m_y := rotation_matrix_y angle_y
  let m_x := rotation_matrix_x angle_x
  let rotation_y_180 := rotation_matrix_y Real.pi
  rotation_y_180 * m_y * m_x

/-- util.rs calculate_transformation_billboard (line 579): computes the same
yaw and pitch angles from the normalized position-to-camera vector, adds the
caller-supplied rotation offsets, composes Rz(roll) * Ry(yaw) * Rx(pitch)
with no 180 degree correction, wraps as translation * rotation * scaling and
applies the view-projection matrix on the left. -/
noncomputable def calculate_transformation_billboard
    (position rotation scale camera_position : Vec3)
    (view_projection_matrix : Mat4) : Mat4 :=
  let billboard_to_camera := camera_position - position
  let billboard_to_camera_direction := Vec3.normalize billboard_to_camera
  let billboard_angle_x := atan2 billboard_to_camera_direction.y
    (length2 billboard_to_camera_direction.x billboard_to_camera_direction.z)
  let billboard_angle_y := atan2 billboard_to_camera_direction.x
    billboard_to_camera_direction.z
  let billboard_rotation_matrix_x := rotation_matrix_x (billboard_angle_x + rotation.x)
  let billboard_rotation_matrix_y := rotation_matrix_y (billboard_angle_y + rotation.y)
  let billboard_rotation_matrix_z := rotation_matrix_z rotation.z
  let billboard_rotation_matrix :=
    billboard_rotation_matrix_z * billboard_rotation_matrix_y * billboard_rotation_matrix_x
  let billboard_transform_matrix : Mat4 :=
    translation position *
    billboard_rotation_matrix *
    scaling scale
  view_projection_matrix * billboard_transform_matrix

/-- Modelled from the spec: the scene-graph node of spec section 3.  The
repository source under src contains no scene-graph module (the spec
describes it in sections 3, 4.2 and 9), so the data model is taken from the
spec words: local position, rotation, scale and pivot, an optional drawable
handle, and an ordered list of owned children. -/
inductive SceneNode where
  | mk (position rotation scale referencePoint : Vec3)
       (drawable : Option ℕ) (children : List SceneNode)

/-- The drawable handle of a node, if any. -/
def SceneNode.drawable : SceneNode → Option ℕ
  | SceneNode.mk _ _ _ _ d _ => d

/-- Modelled from the spec: the pivot-aware local transform of spec
section 4.1, T(position) * T(referencePoint) * R(rotation) *
T(-referencePoint) * S(scale) with R = Rz * Ry * Rx. -/
noncomputable def local_transform (n : SceneNode) : Mat4 :=
  match n with
  | SceneNode.mk position rotation scale referencePoint _ _ =>
    translation position *
    translation referencePoint *
    (rotation_matrix_z rotation.z *
     rotation_matrix_y rotation.y *
     rotation_matrix_x rotation.x) *
    translation (-referencePoint) *
    scaling scale

mutual

/-- Modelled from the spec: traverse of spec section 4.2.  The world
transform is the accumulated transform times the local transform; a node
with a drawable yields one draw command (drawable, worldTransform,
viewProjection * worldTransform); the children are then traversed in
insertion order with the world transform as the new accumulated
transform. -/
noncomputable def traverse (vp acc : Mat4) : SceneNode → List (ℕ × Mat4 × Mat4)
  | SceneNode.mk position rotation scale referencePoint drawable children =>
    let world := acc *
      local_transform (SceneNode.mk position rotation scale referencePoint drawable children)
    (match drawable with
     | some d => [(d, world, vp * world)]
     | none => []) ++ traverse_children vp world children

/-- Modelled from the spec: traversal of a sibling list in insertion
order. -/
noncomputable def traverse_children (vp acc : Mat4) : List SceneNode → List (ℕ × Mat4 × Mat4)
  | [] => []
  | c :: cs => traverse vp acc c ++ traverse_children vp acc cs

end

mutual

/-- The pre-order visitation sequence of a scene tree: the node itself,
then the pre-order sequences of its children in insertion order. -/
def preorder : SceneNode → List SceneNode
  | SceneNode.mk position rotation scale referencePoint drawable children =>
    SceneNode.mk position rotation scale referencePoint drawable children ::
      preorder_children children

/-- The pre-order visitation sequence of a sibling list in insertion
order. -/
def preorder_children : List SceneNode → List SceneNode
  | [] => []
  | c :: cs => preorder c ++ preorder_children cs

end

/-- A concrete three-level scene tree: a root with children A and B, where A
has one child A1.  Each node carries a drawable handle recording its
identity (root 0, A 1, A1 2, B 3). -/
def example_tree : SceneNode :=
  SceneNode.mk ⟨0, 0, 0⟩ ⟨0, 0, 0⟩ ⟨1, 1, 1⟩ ⟨0, 0, 0⟩ (some 0)
    [SceneNode.mk ⟨0, 0, 0⟩ ⟨0, 0, 0⟩ ⟨1, 1, 1⟩ ⟨0, 0, 0⟩ (some 1)
       [SceneNode.mk ⟨0, 0, 0⟩ ⟨0, 0, 0⟩ ⟨1, 1, 1⟩ ⟨0, 0, 0⟩ (some 2) []],
     SceneNode.mk ⟨0, 0, 0⟩ ⟨0, 0, 0⟩ ⟨1, 1, 1⟩ ⟨0, 0, 0⟩ (some 3) []]

/-- The spec camera forward vector (spec section 4.1):
(cos(yaw)cos(pitch), sin(pitch), sin(yaw)cos(pitch)). -/
noncomputable def spec_forward (yaw pitch : ℝ) : Vec3 :=
  ⟨Real.cos yaw * Real.cos pitch,
   Real.sin pitch,
   Real.sin yaw * Real.cos pitch⟩

/-- The spec camera right vector (spec section 4.1):
normalize(worldUp x forward) with worldUp = (0,1,0). -/
noncomputable def spec_right (yaw pitch : ℝ) : Vec3 :=
  Vec3.normalize (Vec3.cross ⟨0, 1, 0⟩ (spec_forward yaw pitch))

/-- The spec camera up vector (spec section 4.1):
normalize(forward x right). -/
noncomputable def spec_up (yaw pitch : ℝ) : Vec3 :=
  Vec3.normalize (Vec3.cross (spec_forward yaw pitch) (spec_right yaw pitch))

/-! ### Helper lemmas -/

theorem one_fin_four : (1 : Mat4) =
    !![1, 0, 0, 0; 0, 1, 0, 0; 0, 0, 1, 0; 0, 0, 0, 1] := by
  ext i j
  fin_cases i <;> fin_cases j <;>
    simp [Matrix.one_apply, Matrix.vecHead, Matrix.vecTail]

theorem rotation_matrix_x_zero : rotation_matrix_x 0 = 1 := by
  rw [one_fin_four]
  ext i j
  fin_cases i <;> fin_cases j <;>
    simp [rotation_matrix_x, Matrix.vecHead, Matrix.vecTail]

theorem rotation_matrix_y_zero : rotation_matrix_y 0 = 1 := by
  rw [one_fin_four]
  ext i j
  fin_cases i <;> fin_cases j <;>
    simp [rotation_matrix_y, Matrix.vecHead, Matrix.vecTail]

theorem rotation_matrix_z_zero : rotation_matrix_z 0 = 1 := by
  rw [one_fin_four]
  ext i j
  fin_cases i <;> fin_cases j <;>
    simp [rotation_matrix_z, Matrix.vecHead, Matrix.vecTail]

theorem translation_zero : translation ⟨0, 0, 0⟩ = 1 := by
  rw [one_fin_four]
  ext i j
  fin_cases i <;> fin_cases j <;>
    simp [translation, Matrix.vecHead, Matrix.vecTail]

theorem scaling_one : scaling ⟨1, 1, 1⟩ = 1 := by
  rw [one_fin_four]
  ext i j
  fin_cases i <;> fin_cases j <;>
    simp [scaling, Matrix.vecHead, Matrix.vecTail]

theorem rotation_matrix_x_mul_neg (a : ℝ) :
    rotation_matrix_x a * rotation_matrix_x (-a) = 1 := by
  rw [one_fin_four]
  ext i j
  fin_cases i <;> fin_cases j <;>
    simp [rotation_matrix_x, Matrix.mul_apply, Fin.sum_univ_four,
      Matrix.vecHead, Matrix.vecTail] <;>
    nlinarith [Real.sin_sq_add_cos_sq a]

theorem rotation_matrix_y_mul_neg (a : ℝ) :
    rotation_matrix_y a * rotation_matrix_y (-a) = 1 := by
  rw [one_fin_four]
  ext i j
  fin_cases i <;> fin_cases j <;>
    simp [rotation_matrix_y, Matrix.mul_apply, Fin.sum_univ_four,
      Matrix.vecHead, Matrix.vecTail] <;>
    nlinarith [Real.sin_sq_add_cos_sq a]

theorem rotation_matrix_z_mul_neg (a : ℝ) :
    rotation_matrix_z a * rotation_matrix_z (-a) = 1 := by
  rw [one_fin_four]
  ext i j
  fin_cases i <;> fin_cases j <;>
    simp [rotation_matrix_z, Matrix.mul_apply, Fin.sum_univ_four,
      Matrix.vecHead, Matrix.vecTail] <;>
    nlinarith [Real.sin_sq_add_cos_sq a]

theorem rotation_matrix_y_pi_ne_one : rotation_matrix_y Real.pi ≠ 1 := by
  intro h
  have h00 : rotation_matrix_y Real.pi 0 0 = (1 : Mat4) 0 0 := by rw [h]
  simp [rotation_matrix_y, Matrix.one_apply] at h00
  norm_num at h00

theorem clamp_mem (x lo hi : ℝ) (h : lo ≤ hi) :
    lo ≤ clamp x lo hi ∧ clamp x lo hi ≤ hi := by
  unfold clamp
  split
  · exact ⟨le_refl lo, h⟩
  · split
    · exact ⟨h, le_refl hi⟩
    · constructor <;> linarith [not_lt.mp (by assumption : ¬ x < lo),
        not_lt.mp (by assumption : ¬ hi < x)]

theorem clamp_eq_self (x lo hi : ℝ) (h1 : lo ≤ x) (h2 : x ≤ hi) :
    clamp x lo hi = x := by
  unfold clamp
  rw [if_neg (not_lt.mpr h1), if_neg (not_lt.mpr h2)]

theorem clamp_idem (x lo hi : ℝ) (h : lo ≤ hi) :
    clamp (clamp x lo hi) lo hi = clamp x lo hi :=
  clamp_eq_self _ _ _ (clamp_mem x lo hi h).1 (clamp_mem x lo hi h).2

theorem clamp_of_gt (x lo hi : ℝ) (hlo : lo ≤ hi) (h : hi < x) :
    clamp x lo hi = hi := by
  unfold clamp
  split
  · linarith
  · simp [h]

theorem clamp_of_lt (x lo hi : ℝ) (h : x < lo) :
    clamp x lo hi = lo := by
  unfold clamp
  simp [h]

theorem atan2_zero_one : atan2 0 1 = 0 := by
  simp [atan2, Real.arctan_zero]

theorem atan2_one_zero : atan2 1 0 = Real.pi / 2 := by
  norm_num [atan2]

theorem sqrt_twentyfive : Real.sqrt 25 = 5 := by
  rw [show (25 : ℝ) = 5 ^ 2 by norm_num]
  exact Real.sqrt_sq (by norm_num)

theorem normalize_z5 : Vec3.normalize ⟨0, 0, 5⟩ = ⟨0, 0, 1⟩ := by
  unfold Vec3.normalize Vec3.length
  norm_num [sqrt_twentyfive]

theorem normalize_x5 : Vec3.normalize ⟨5, 0, 0⟩ = ⟨1, 0, 0⟩ := by
  unfold Vec3.normalize Vec3.length
  norm_num [sqrt_twentyfive]

theorem length2_zero_one : length2 0 1 = 1 := by
  unfold length2
  norm_num

theorem length2_one_zero : length2 1 0 = 1 := by
  unfold length2
  norm_num

/-! ### Claim theorems -/

/-- C9: for every rotation angle triple (a, b, c), composing the rotation
Rz(c) * Ry(b) * Rx(a) built from rotation_matrix_z, rotation_matrix_y and
rotation_matrix_x with its exact negation applied in reverse composition
order, Rx(-a) * Ry(-b) * Rz(-c), yields the 4x4 identity transform (exactly,
in the real-number model of the f32 arithmetic). -/
theorem rotation_negation_reverse_inverse (a b c : ℝ) :
    (rotation_matrix_z c * rotation_matrix_y b * rotation_matrix_x a) *
      (rotation_matrix_x (-a) * rotation_matrix_y (-b) * rotation_matrix_z (-c)) = 1 := by
  have hx := rotation_matrix_x_mul_neg a
  have hy := rotation_matrix_y_mul_neg b
  have hz := rotation_matrix_z_mul_neg c
  simp only [mul_assoc]
  rw [← mul_assoc (rotation_matrix_x a), hx, one_mul]
  rw [← mul_assoc (rotation_matrix_y b), hy, one_mul]
  exact hz

/-- C4: calculate_transformation_object composes scale innermost, rotation
second (in the fixed order Rz * Ry * Rx), translation outermost, and applies
the view-projection on the left: the result is
VP * T(position) * Rz(rotation.z) * Ry(rotation.y) * Rx(rotation.x) * S(scale).
rotate_vertices combines its per-axis rotation matrices in the same
Rz * Ry * Rx order: applying its combined matrix to each homogeneous vertex
agrees with rotating about X first, then Y, then Z. -/
theorem transformation_object_composition :
    (∀ (position rotation scale : Vec3) (vp : Mat4),
      calculate_transformation_object position rotation scale vp =
        vp * translation position * rotation_matrix_z rotation.z *
          rotation_matrix_y rotation.y * rotation_matrix_x rotation.x * scaling scale) ∧
    (∀ (vertices : List ℝ) (rx ry rz : ℝ),
      rotate_vertices vertices rx ry rz =
        (List.range (vertices.length / 3)).flatMap (fun i =>
          let vertex : Fin 4 → ℝ :=
            ![vertices.getD (3 * i) 0, vertices.getD (3 * i + 1) 0,
              vertices.getD (3 * i + 2) 0, 1]
          let rotated_vertex := Matrix.mulVec (rotation_matrix_z rz)
            (Matrix.mulVec (rotation_matrix_y ry)
              (Matrix.mulVec (rotation_matrix_x rx) vertex))
          [rotated_vertex 0, rotated_vertex 1, rotated_vertex 2])) := by
  constructor
  · intro position rotation scale vp
    simp only [calculate_transformation_object, mul_assoc]
  · intro vertices rx ry rz
    simp only [rotate_vertices, Matrix.mulVec_mulVec, mul_assoc]

/-- C6: for every yaw and pitch, calculate_direction returns exactly the
spec forward vector (cos(yaw)cos(pitch), sin(pitch), sin(yaw)cos(pitch)),
and the per-frame loop computes right = normalize(worldUp x forward) with
worldUp = (0,1,0) and up = normalize(forward x right), exactly the spec
cross-product-and-normalize expressions. -/
theorem camera_basis_spec (yaw pitch : ℝ) :
    calculate_direction yaw pitch = spec_forward yaw pitch ∧
    camera_right yaw pitch = spec_right yaw pitch ∧
    camera_up yaw pitch = spec_up yaw pitch :=
  ⟨rfl, rfl, rfl⟩

/-- C7: for every camera look state with stored pitch in [-pi/2, pi/2] and
any accumulated mouse delta, if the raw updated pitch
(pitch - dy * sensitivity) exceeds pi/2 then the stored pitch after the
per-frame update equals exactly pi/2, and symmetrically equals exactly
-pi/2 when the raw value falls below -pi/2; the out-of-range value is
corrected silently by clamping. -/
theorem pitch_clamped_to_bound (st : CameraLook)
    (h1 : -(Real.pi / 2) ≤ st.pitch) (h2 : st.pitch ≤ Real.pi / 2) :
    (Real.pi / 2 < st.pitch - st.delta.2 * mouse_sensitivity →
      (consume_mouse_delta st).pitch = Real.pi / 2) ∧
    (st.pitch - st.delta.2 * mouse_sensitivity < -(Real.pi / 2) →
      (consume_mouse_delta st).pitch = -(Real.pi / 2)) := by
  have hpi : (0 : ℝ) < Real.pi := Real.pi_pos
  constructor
  · intro hraw
    simp only [consume_mouse_delta]
    exact clamp_of_gt _ _ _ (by linarith) hraw
  · intro hraw
    simp only [consume_mouse_delta]
    exact clamp_of_lt _ _ _ hraw

/-- C7 witness: starting from pitch 0 with accumulated delta (0, -400), the
raw updated pitch is 2 which exceeds pi/2, and the stored pitch after the
update is exactly pi/2. -/
theorem pitch_clamped_to_bound_witness :
    (-(Real.pi / 2) ≤ (0 : ℝ) ∧ (0 : ℝ) ≤ Real.pi / 2 ∧
      Real.pi / 2 < (0 : ℝ) - (-400) * mouse_sensitivity) ∧
    (consume_mouse_delta ⟨0, 0, (0, -400)⟩).pitch = Real.pi / 2 := by
  have hpi : (0 : ℝ) < Real.pi := Real.pi_pos
  have hlt : Real.pi < 3.15 := Real.pi_lt_d2
  have h1 : -(Real.pi / 2) ≤ (0 : ℝ) := by linarith
  have h2 : (0 : ℝ) ≤ Real.pi / 2 := by linarith
  have h3 : Real.pi / 2 < (0 : ℝ) - (-400) * mouse_sensitivity := by
    unfold mouse_sensitivity
    norm_num
    linarith
  exact ⟨⟨h1, h2, h3⟩,
    (pitch_clamped_to_bound ⟨0, 0, (0, -400)⟩ h1 h2).1 h3⟩

/-- C8: on each frame the accumulated mouse delta is consumed exactly once
into camera orientation (yaw changed by dx times the sensitivity, pitch by
dy times the sensitivity and then clamped) and the shared delta is reset to
(0, 0) in the same critical section; consuming again after a consumption
changes nothing (at-most-once application of a given delta). -/
theorem mouse_delta_consumed_once (st : CameraLook) :
    (consume_mouse_delta st).delta = (0, 0) ∧
    (consume_mouse_delta st).yaw = st.yaw + st.delta.1 * mouse_sensitivity ∧
    (consume_mouse_delta st).pitch =
      clamp (st.pitch - st.delta.2 * mouse_sensitivity)
        (-(Real.pi / 2)) (Real.pi / 2) ∧
    consume_mouse_delta (consume_mouse_delta st) = consume_mouse_delta st := by
  have hpi : (0 : ℝ) < Real.pi := Real.pi_pos
  refine ⟨rfl, rfl, rfl, ?_⟩
  simp only [consume_mouse_delta]
  congr 1
  · ring
  · rw [show ((0, 0) : ℝ × ℝ).2 * mouse_sensitivity = 0 by norm_num, sub_zero]
    exact clamp_idem _ _ _ (by linarith)

/-- C10: for every yaw, and every pitch with cos(pitch) > 0, the closed-form
right vector calculate_right_vector(yaw) = normalize((sin yaw, 0, -cos yaw))
equals the cross-product-based right vector used in the render loop,
normalize((0,1,0) x calculate_direction(yaw, pitch)). -/
theorem right_vector_refines_cross (yaw pitch : ℝ) (h : 0 < Real.cos pitch) :
    calculate_right_vector yaw = camera_right yaw pitch := by
  have hyaw : Real.sin yaw ^ 2 + Real.cos yaw ^ 2 = 1 := Real.sin_sq_add_cos_sq yaw
  have hlen1 : Vec3.length ⟨Real.sin yaw, 0, -Real.cos yaw⟩ = 1 := by
    unfold Vec3.length
    rw [show Real.sin yaw ^ 2 + (0 : ℝ) ^ 2 + (-Real.cos yaw) ^ 2 = 1 by nlinarith]
    exact Real.sqrt_one
  have hcross : Vec3.cross world_up (calculate_direction yaw pitch) =
      ⟨Real.sin yaw * Real.cos pitch, 0, -(Real.cos yaw * Real.cos pitch)⟩ := by
    unfold Vec3.cross world_up calculate_direction
    ext <;> ring
  have hlen2 : Vec3.length ⟨Real.sin yaw * Real.cos pitch, 0,
      -(Real.cos yaw * Real.cos pitch)⟩ = Real.cos pitch := by
    show Real.sqrt ((Real.sin yaw * Real.cos pitch) ^ 2 + (0 : ℝ) ^ 2 +
      (-(Real.cos yaw * Real.cos pitch)) ^ 2) = Real.cos pitch
    rw [show (Real.sin yaw * Real.cos pitch) ^ 2 + (0 : ℝ) ^ 2 +
        (-(Real.cos yaw * Real.cos pitch)) ^ 2 = Real.cos pitch ^ 2 by nlinarith]
    exact Real.sqrt_sq h.le
  unfold calculate_right_vector camera_right
  rw [hcross]
  unfold Vec3.normalize
  rw [hlen1, hlen2]
  ext <;> field_simp

/-- C10 witness: at yaw 0 and pitch 0 the cosine of the pitch is positive
and the two right-vector computations agree. -/
theorem right_vector_refines_cross_witness :
    0 < Real.cos 0 ∧ calculate_right_vector 0 = camera_right 0 0 :=
  ⟨by norm_num, right_vector_refines_cross 0 0 (by norm_num)⟩

mutual

theorem traverse_ids (vp acc : Mat4) : (t : SceneNode) →
    (traverse vp acc t).map Prod.fst = (preorder t).filterMap SceneNode.drawable
  | SceneNode.mk p r s rp d cs => by
    cases d with
    | none =>
      simp [traverse, preorder, SceneNode.drawable,
        traverse_children_ids vp
          (acc * local_transform (SceneNode.mk p r s rp none cs)) cs]
    | some dr =>
      simp [traverse, preorder, SceneNode.drawable,
        traverse_children_ids vp
          (acc * local_transform (SceneNode.mk p r s rp (some dr) cs)) cs]

theorem traverse_children_ids (vp acc : Mat4) : (l : List SceneNode) →
    (traverse_children vp acc l).map Prod.fst =
      (preorder_children l).filterMap SceneNode.drawable
  | [] => by simp [traverse_children, preorder_children]
  | c :: cs => by
    simp [traverse_children, preorder_children, traverse_ids vp acc c,
      traverse_children_ids vp acc cs]

end

/-- C5: the scene is traversed in deterministic pre-order depth-first order,
each node before its children and siblings in insertion order, with one draw
command yielded per node that has a drawable attached: the draw commands of
traverse are exactly the drawables of the pre-order visitation sequence, and
on the 3-level tree (root with children A and B, A with child A1, drawable
handles 0, 1, 2, 3) the emitted sequence is exactly [root, A, A1, B]. -/
theorem traverse_preorder_draw_order :
    (∀ (vp acc : Mat4) (t : SceneNode),
      (traverse vp acc t).map Prod.fst = (preorder t).filterMap SceneNode.drawable) ∧
    (traverse 1 1 example_tree).map Prod.fst = [0, 1, 2, 3] := by
  refine ⟨fun vp acc t => traverse_ids vp acc t, ?_⟩
  rw [traverse_ids]
  simp [example_tree, preorder, preorder_children, SceneNode.drawable]

/-- C1 (evaluation of the code at the failing input): starting from the
initial state (window 800x600, aspect ratio 800/600), a resize event to
1600x600 is observed and consumed by the render loop (flag drained), yet the
loop-local aspect ratio still equals 800/600 — the update statement is
commented out in the source (main.rs line 185) — so the perspective matrix
of the next frame differs from the one computed from the new aspect ratio
1600/600. -/
theorem resize_aspect_ratio_stale :
    (handle_resize (resized_event initial_render_state 1600 600)).window_size
        = (1600, 600, false) ∧
    (handle_resize (resized_event initial_render_state 1600 600)).window_aspect_ratio
        = 800 / 600 ∧
    ((800 : ℝ) / 600 ≠ (1600 : ℝ) / 600) ∧
    frame_perspective_matrix (handle_resize (resized_event initial_render_state 1600 600)) ≠
      perspective ((1600 : ℝ) / 600) (45 * (Real.pi / 180)) 1 100 := by
  have hcast : (handle_resize (resized_event initial_render_state 1600 600)).window_aspect_ratio
      = 800 / 600 := by
    simp [handle_resize, resized_event, initial_render_state,
      INITIAL_SCREEN_W, INITIAL_SCREEN_H]
  refine ⟨by simp [handle_resize, resized_event, initial_render_state],
    hcast, by norm_num, ?_⟩
  intro h
  have ht : 0 < Real.tan (45 * (Real.pi / 180) / 2) := by
    rw [show 45 * (Real.pi / 180) / 2 = Real.pi / 8 by ring]
    exact Real.tan_pos_of_pos_of_lt_pi_div_two (by positivity)
      (by linarith [Real.pi_pos])
  have htne : Real.tan (45 * (Real.pi / 180) / 2) ≠ 0 := ne_of_gt ht
  have h00 : (frame_perspective_matrix
        (handle_resize (resized_event initial_render_state 1600 600))) 0 0 =
      (perspective ((1600 : ℝ) / 600) (45 * (Real.pi / 180)) 1 100) 0 0 := by
    rw [h]
  rw [frame_perspective_matrix, hcast] at h00
  simp only [perspective, Matrix.cons_val_zero, Matrix.cons_val_fin_one,
    Matrix.of_apply] at h00
  rw [div_eq_div_iff (by positivity) (by positivity)] at h00
  nlinarith [ht]

/-- C2 counterexample: the two billboard code paths do not agree — for a
particle at the origin and camera at (0, 0, 5), with zero rotation offsets,
unit scale and identity view-projection, util.rs
calculate_transformation_billboard returns the identity (no 180 degree yaw
correction is applied on that path), while the render-loop computation
particles_rotation_animation_matrix returns the 180 degree yaw rotation, so
the claim that the fixed 180 degree yaw correction is applied on every
billboard code path is false. -/
theorem billboard_paths_differ :
    calculate_transformation_billboard ⟨0, 0, 0⟩ ⟨0, 0, 0⟩ ⟨1, 1, 1⟩ ⟨0, 0, 5⟩ 1 ≠
      particles_rotation_animation_matrix ⟨0, 0, 5⟩ ⟨0, 0, 0⟩ := by
  have hsub : (⟨0, 0, 5⟩ : Vec3) - ⟨0, 0, 0⟩ = ⟨0, 0, 5⟩ := by
    rw [Vec3.sub_def]; norm_num
  have hutil : calculate_transformation_billboard
      ⟨0, 0, 0⟩ ⟨0, 0, 0⟩ ⟨1, 1, 1⟩ ⟨0, 0, 5⟩ 1 = 1 := by
    simp only [calculate_transformation_billboard, hsub, normalize_z5,
      length2_zero_one, atan2_zero_one, add_zero, rotation_matrix_x_zero,
      rotation_matrix_y_zero, rotation_matrix_z_zero, translation_zero,
      scaling_one, one_mul, mul_one]
  have hmain : particles_rotation_animation_matrix ⟨0, 0, 5⟩ ⟨0, 0, 0⟩ =
      rotation_matrix_y Real.pi := by
    simp only [particles_rotation_animation_matrix, hsub, normalize_z5,
      length2_zero_one, atan2_zero_one, rotation_matrix_x_zero,
      rotation_matrix_y_zero, one_mul, mul_one]
  rw [hutil, hmain]
  exact fun h => rotation_matrix_y_pi_ne_one h.symm

/-- C2 (amended): on both billboard code paths the orientation angles are
yaw = atan2(toCamera.x, toCamera.z) and
pitch = atan2(toCamera.y, length of the xz-projection of toCamera) with
toCamera = normalize(cameraPosition - particlePosition); the render-loop
path applies the fixed 180 degree yaw correction before composing the
yaw-then-pitch rotations, while util.rs calculate_transformation_billboard
composes Rz(roll) * Ry(yaw + offset) * Rx(pitch + offset) without the 180
degree correction.  For a particle at the origin and camera at (0, 0, 5)
the computed yaw and pitch are both 0, and moving the camera to (5, 0, 0)
changes yaw to pi/2 (90 degrees) while pitch remains 0. -/
theorem billboard_orientation_spec :
    (∀ camera_position particles_position : Vec3,
      particles_rotation_animation_matrix camera_position particles_position =
        rotation_matrix_y Real.pi *
          (rotation_matrix_y (billboard_yaw camera_position particles_position) *
            rotation_matrix_x (billboard_pitch camera_position particles_position))) ∧
    (∀ (position rotation scale camera_position : Vec3) (vp : Mat4),
      calculate_transformation_billboard position rotation scale camera_position vp =
        vp * (translation position *
          ((rotation_matrix_z rotation.z *
            (rotation_matrix_y (billboard_yaw camera_position position + rotation.y) *
              rotation_matrix_x (billboard_pitch camera_position position + rotation.x))) *
            scaling scale))) ∧
    (billboard_yaw ⟨0, 0, 5⟩ ⟨0, 0, 0⟩ = 0 ∧ billboard_pitch ⟨0, 0, 5⟩ ⟨0, 0, 0⟩ = 0) ∧
    (billboard_yaw ⟨5, 0, 0⟩ ⟨0, 0, 0⟩ = Real.pi / 2 ∧
      billboard_pitch ⟨5, 0, 0⟩ ⟨0, 0, 0⟩ = 0) := by
  have hsubz : (⟨0, 0, 5⟩ : Vec3) - ⟨0, 0, 0⟩ = ⟨0, 0, 5⟩ := by
    rw [Vec3.sub_def]; norm_num
  have hsubx : (⟨5, 0, 0⟩ : Vec3) - ⟨0, 0, 0⟩ = ⟨5, 0, 0⟩ := by
    rw [Vec3.sub_def]; norm_num
  refine ⟨?_, ?_, ⟨?_, ?_⟩, ⟨?_, ?_⟩⟩
  · intro camera_position particles_position
    simp only [particles_rotation_animation_matrix, billboard_yaw,
      billboard_pitch, mul_assoc]
  · intro position rotation scale camera_position vp
    simp only [calculate_transformation_billboard, billboard_yaw,
      billboard_pitch, mul_assoc]
  · simp only [billboard_yaw, hsubz, normalize_z5, atan2_zero_one]
  · simp only [billboard_pitch, hsubz, normalize_z5, length2_zero_one,
      atan2_zero_one]
  · simp only [billboard_yaw, hsubx, normalize_x5, atan2_one_zero]
  · simp only [billboard_pitch, hsubx, normalize_x5, length2_one_zero,
      atan2_zero_one]

/-- C3 counterexample: camera pitch is not kept strictly inside the open
interval — starting from pitch 0, an accumulated mouse delta of (0, -400)
drives the raw pitch to 2 and the stored pitch after the per-frame update is
exactly pi/2, sitting on the boundary; there the cross product
worldUp x forward of the per-frame right-vector computation is the zero
vector (in the exact real-number model), so a zero-magnitude vector is fed
to the normalization. -/
theorem pitch_boundary_reachable :
    (consume_mouse_delta ⟨0, 0, (0, -400)⟩).pitch = Real.pi / 2 ∧
    ¬ ((consume_mouse_delta ⟨0, 0, (0, -400)⟩).pitch < Real.pi / 2) ∧
    Vec3.cross world_up (calculate_direction 0 (Real.pi / 2)) = ⟨0, 0, 0⟩ := by
  have hpi : (0 : ℝ) < Real.pi := Real.pi_pos
  have hlt : Real.pi < 3.15 := Real.pi_lt_d2
  have hp : (consume_mouse_delta ⟨0, 0, (0, -400)⟩).pitch = Real.pi / 2 := by
    simp only [consume_mouse_delta]
    rw [show (0 : ℝ) - ((0 : ℝ), (-400 : ℝ)).2 * mouse_sensitivity = 2 by
      unfold mouse_sensitivity; norm_num]
    exact clamp_of_gt _ _ _ (by linarith) (by linarith)
  refine ⟨hp, by rw [hp]; exact lt_irrefl _, ?_⟩
  unfold Vec3.cross world_up calculate_direction
  ext <;> simp

/-- C3 (amended): the stored camera pitch is kept in the closed interval
[-pi/2, pi/2] — the code clamps to the closed interval, so the boundary is
attainable (see the counterexample) and the claimed strict-interior
invariant does not hold; strictly inside the open interval the cross
product worldUp x forward of the right-vector computation is nonzero, so no
zero-magnitude vector is normalized there. -/
theorem pitch_closed_interval_invariant :
    (∀ st : CameraLook,
      -(Real.pi / 2) ≤ (consume_mouse_delta st).pitch ∧
        (consume_mouse_delta st).pitch ≤ Real.pi / 2) ∧
    (∀ yaw p : ℝ, -(Real.pi / 2) < p → p < Real.pi / 2 →
      Vec3.cross world_up (calculate_direction yaw p) ≠ (⟨0, 0, 0⟩ : Vec3)) := by
  have hpi : (0 : ℝ) < Real.pi := Real.pi_pos
  constructor
  · intro st
    simp only [consume_mouse_delta]
    exact clamp_mem _ _ _ (by linarith)
  · intro yaw p h1 h2 h
    have hcos : 0 < Real.cos p := Real.cos_pos_of_mem_Ioo ⟨h1, h2⟩
    rw [show Vec3.cross world_up (calculate_direction yaw p) =
        ⟨Real.sin yaw * Real.cos p, 0, -(Real.cos yaw * Real.cos p)⟩ from by
      unfold Vec3.cross world_up calculate_direction; ext <;> ring] at h
    rw [Vec3.mk.injEq] at h
    obtain ⟨hx, -, hz⟩ := h
    have hsin : Real.sin yaw = 0 := by
      rcases mul_eq_zero.mp hx with h0 | h0
      · exact h0
      · exact absurd h0 (ne_of_gt hcos)
    have hcosy : Real.cos yaw = 0 := by
      have : Real.cos yaw * Real.cos p = 0 := by linarith [hz]
      rcases mul_eq_zero.mp this with h0 | h0
      · exact h0
      · exact absurd h0 (ne_of_gt hcos)
    nlinarith [Real.sin_sq_add_cos_sq yaw]

/-- C3 amended witness: at yaw 0 and pitch 0 (strictly inside the open
interval) the cross product worldUp x forward is nonzero, and the clamp of
the concrete update keeps pitch inside the closed interval. -/
theorem pitch_closed_interval_invariant_witness :
    (-(Real.pi / 2) < (0 : ℝ) ∧ (0 : ℝ) < Real.pi / 2 ∧
      Vec3.cross world_up (calculate_direction 0 0) ≠ (⟨0, 0, 0⟩ : Vec3)) ∧
    (-(Real.pi / 2) ≤ (consume_mouse_delta ⟨0, 0, (0, -400)⟩).pitch ∧
      (consume_mouse_delta ⟨0, 0, (0, -400)⟩).pitch ≤ Real.pi / 2) := by
  have hpi : (0 : ℝ) < Real.pi := Real.pi_pos
  have h1 : -(Real.pi / 2) < (0 : ℝ) := by linarith
  have h2 : (0 : ℝ) < Real.pi / 2 := by linarith
  exact ⟨⟨h1, h2, pitch_closed_interval_invariant.2 0 0 h1 h2⟩,
    pitch_closed_interval_invariant.1 ⟨0, 0, (0, -400)⟩⟩

end Gloom
